import Mathlib

/-!
Verification of the `tcp` header-only library (`include/tcp/tcp.hpp`): a shallow
embedding of its two value types, `Endpoint` (IPv4 address + port stored in
network byte order inside a `sockaddr_in`) and `Socket` (move-only owner of one
OS socket descriptor), together with proofs of the specified properties.

Machine integers are embedded as `Nat`; widths are enforced by explicit bounds
or masks exactly where the C++ types enforce them.  The target platform is the
one the source supports (64-bit little-endian Windows), so `SOCKET` is a 64-bit
unsigned integer and `INVALID_SOCKET = 2^64 - 1`, and a `sockaddr_in`'s fields
are read by the CPU in little-endian order.
-/

namespace tcp

/-- Translation of `internal::swapBytes` instantiated at a 16-bit value
(`sizeof(value) == 2` branch): `((value >> 8) & 0x00FF) | ((value << 8) & 0xFF00)`.
The C++ computation happens after integer promotion and every intermediate fits,
so plain `Nat` arithmetic with the same masks is exact. -/
def swapBytes16 (value : Nat) : Nat :=
  ((value >>> 8) &&& 0x00FF) ||| ((value <<< 8) &&& 0xFF00)

/-- Translation of `internal::swapBytes` instantiated at a 32-bit value
(`sizeof(value) == 4` branch).  In C++ `value << 24` wraps modulo `2^32`, but the
mask `0xFF000000` discards exactly the wrapped-away bits, so the unwrapped `Nat`
shift followed by the same mask agrees. -/
def swapBytes32 (value : Nat) : Nat :=
  ((value >>> 24) &&& 0x000000FF) ||| ((value >>> 8) &&& 0x0000FF00) |||
  ((value <<< 8) &&& 0x00FF0000) ||| ((value <<< 24) &&& 0xFF000000)

/-! ### Arithmetic facts about the byte swaps -/

theorem and_shiftLeft_mask (x m k : Nat) :
    x &&& (m <<< k) = ((x >>> k) &&& m) <<< k := by
  apply Nat.eq_of_testBit_eq
  intro i
  simp only [Nat.testBit_and, Nat.testBit_shiftLeft, Nat.testBit_shiftRight]
  by_cases h : k ≤ i
  · have hi : k + (i - k) = i := by omega
    simp [h, hi, Nat.le_iff_lt_or_eq, Bool.and_comm, Bool.and_left_comm]
  · simp [h]

theorem and_255_eq_mod (x : Nat) : x &&& 255 = x % 256 := by
  have h : (255 : Nat) = 2 ^ 8 - 1 := by norm_num
  rw [h, Nat.and_pow_two_sub_one_eq_mod]

/-- Characterisation of the 16-bit swap as pure div/mod arithmetic: the low byte
moves up, the high byte moves down. -/
theorem swapBytes16_eq (v : Nat) :
    swapBytes16 v = v % 256 * 256 + v / 256 % 256 := by
  unfold swapBytes16
  have h1 : (v >>> 8) &&& 0x00FF = v / 256 % 256 := by
    rw [Nat.shiftRight_eq_div_pow, and_255_eq_mod]
  have hmask : (0xFF00 : Nat) = 255 <<< 8 := by decide
  have h2 : (v <<< 8) &&& 0xFF00 = v % 256 * 256 := by
    rw [hmask, and_shiftLeft_mask]
    simp only [Nat.shiftLeft_eq, Nat.shiftRight_eq_div_pow]
    rw [Nat.mul_div_cancel v (by norm_num : (0:Nat) < 2 ^ 8), and_255_eq_mod]
  rw [h1, h2]
  have hlt : v / 256 % 256 < 2 ^ 8 := by
    have := Nat.mod_lt (v / 256) (by norm_num : (0:Nat) < 256)
    omega
  have := Nat.mul_add_lt_is_or hlt (v % 256)
  calc v / 256 % 256 ||| v % 256 * 256
      = v % 256 * 256 ||| v / 256 % 256 := Nat.lor_comm _ _
    _ = 2 ^ 8 * (v % 256) ||| v / 256 % 256 := by ring_nf
    _ = 2 ^ 8 * (v % 256) + v / 256 % 256 := (Nat.mul_add_lt_is_or hlt _).symm
    _ = v % 256 * 256 + v / 256 % 256 := by ring

theorem lor_small (a b i : Nat) (hb : b < 2 ^ i) :
    b ||| a * 2 ^ i = a * 2 ^ i + b := by
  rw [Nat.lor_comm, Nat.mul_comm a (2 ^ i)]
  exact (Nat.mul_add_lt_is_or hb a).symm

/-- Characterisation of the 32-bit swap as pure div/mod arithmetic: the four
bytes are reversed. -/
theorem swapBytes32_eq (v : Nat) :
    swapBytes32 v =
      v % 256 * 16777216 + v / 256 % 256 * 65536 +
        v / 65536 % 256 * 256 + v / 16777216 % 256 := by
  unfold swapBytes32
  have t0 : (v >>> 24) &&& 0x000000FF = v / 16777216 % 256 := by
    rw [Nat.shiftRight_eq_div_pow, and_255_eq_mod]
  have t1 : (v >>> 8) &&& 0x0000FF00 = v / 65536 % 256 * 256 := by
    have hm : (0x0000FF00 : Nat) = 255 <<< 8 := by decide
    rw [hm, and_shiftLeft_mask]
    simp only [Nat.shiftRight_eq_div_pow, Nat.shiftLeft_eq, and_255_eq_mod]
    rw [Nat.div_div_eq_div_mul]
  have t2 : (v <<< 8) &&& 0x00FF0000 = v / 256 % 256 * 65536 := by
    have hm : (0x00FF0000 : Nat) = 255 <<< 16 := by decide
    rw [hm, and_shiftLeft_mask]
    simp only [Nat.shiftRight_eq_div_pow, Nat.shiftLeft_eq, and_255_eq_mod]
    have hdiv : v * 2 ^ 8 / 2 ^ 16 = v / 256 := by
      rw [show (2:Nat) ^ 16 = 2 ^ 8 * 256 by norm_num, ← Nat.div_div_eq_div_mul,
        Nat.mul_div_cancel v (by norm_num : (0:Nat) < 2 ^ 8)]
    rw [hdiv]
  have t3 : (v <<< 24) &&& 0xFF000000 = v % 256 * 16777216 := by
    have hm : (0xFF000000 : Nat) = 255 <<< 24 := by decide
    rw [hm, and_shiftLeft_mask]
    simp only [Nat.shiftRight_eq_div_pow, Nat.shiftLeft_eq, and_255_eq_mod]
    rw [Nat.mul_div_cancel v (by norm_num : (0:Nat) < 2 ^ 24)]
  rw [t0, t1, t2, t3]
  have h0 : v / 16777216 % 256 < 2 ^ 8 := by omega
  rw [show v / 65536 % 256 * 256 = v / 65536 % 256 * 2 ^ 8 by norm_num,
    lor_small _ _ 8 h0]
  have h1 : v / 65536 % 256 * 2 ^ 8 + v / 16777216 % 256 < 2 ^ 16 := by omega
  rw [show v / 256 % 256 * 65536 = v / 256 % 256 * 2 ^ 16 by norm_num,
    lor_small _ _ 16 h1]
  have h2 : v / 256 % 256 * 2 ^ 16 + (v / 65536 % 256 * 2 ^ 8 + v / 16777216 % 256) <
      2 ^ 24 := by omega
  rw [show v % 256 * 16777216 = v % 256 * 2 ^ 24 by norm_num,
    lor_small _ _ 24 h2]
  omega

/-- The 16-bit swap on a pair of bytes exchanges them. -/
theorem swapBytes16_bytes (a b : Nat) (ha : a < 256) (hb : b < 256) :
    swapBytes16 (a + 256 * b) = b + 256 * a := by
  rw [swapBytes16_eq]
  omega

/-- The 32-bit swap on four bytes reverses them. -/
theorem swapBytes32_bytes (a b c d : Nat) (ha : a < 256) (hb : b < 256)
    (hc : c < 256) (hd : d < 256) :
    swapBytes32 (a + 256 * b + 65536 * c + 16777216 * d) =
      d + 256 * c + 65536 * b + 16777216 * a := by
  rw [swapBytes32_eq]
  omega

/-- Swapping a 16-bit value twice gives the value back. -/
theorem swapBytes16_involutive (v : Nat) (h : v < 65536) :
    swapBytes16 (swapBytes16 v) = v := by
  have ha : v % 256 < 256 := Nat.mod_lt _ (by norm_num)
  have hb : v / 256 < 256 := by omega
  have hv : v % 256 + 256 * (v / 256) = v := by omega
  calc swapBytes16 (swapBytes16 v)
      = swapBytes16 (swapBytes16 (v % 256 + 256 * (v / 256))) := by rw [hv]
    _ = swapBytes16 (v / 256 + 256 * (v % 256)) := by
        rw [swapBytes16_bytes _ _ ha hb]
    _ = v % 256 + 256 * (v / 256) := swapBytes16_bytes _ _ hb ha
    _ = v := hv

/-- Swapping a 32-bit value twice gives the value back. -/
theorem swapBytes32_involutive (v : Nat) (h : v < 4294967296) :
    swapBytes32 (swapBytes32 v) = v := by
  have ha : v % 256 < 256 := Nat.mod_lt _ (by norm_num)
  have hb : v / 256 % 256 < 256 := Nat.mod_lt _ (by norm_num)
  have hc : v / 65536 % 256 < 256 := Nat.mod_lt _ (by norm_num)
  have hd : v / 16777216 < 256 := by omega
  have hv : v % 256 + 256 * (v / 256 % 256) + 65536 * (v / 65536 % 256) +
      16777216 * (v / 16777216) = v := by omega
  calc swapBytes32 (swapBytes32 v)
      = swapBytes32 (swapBytes32 (v % 256 + 256 * (v / 256 % 256) +
          65536 * (v / 65536 % 256) + 16777216 * (v / 16777216))) := by rw [hv]
    _ = swapBytes32 (v / 16777216 + 256 * (v / 65536 % 256) +
          65536 * (v / 256 % 256) + 16777216 * (v % 256)) := by
        rw [swapBytes32_bytes _ _ _ _ ha hb hc hd]
    _ = v % 256 + 256 * (v / 256 % 256) + 65536 * (v / 65536 % 256) +
          16777216 * (v / 16777216) := swapBytes32_bytes _ _ _ _ hd hc hb ha
    _ = v := hv

/-- The 32-bit swap is injective on 32-bit values. -/
theorem swapBytes32_inj (a b : Nat) (ha : a < 4294967296) (hb : b < 4294967296)
    (h : swapBytes32 a = swapBytes32 b) : a = b := by
  have := congrArg swapBytes32 h
  rwa [swapBytes32_involutive a ha, swapBytes32_involutive b hb] at this

/-! ### Endpoint -/

/-- Winsock address family marker for IPv4 (`AF_INET`). -/
def AF_INET : Nat := 2

/-- The fields of a `sockaddr_in` that the program reads or writes:
`sin_family` (16-bit), `sin_port` (16-bit, network byte order) and
`sin_addr.s_addr` (32-bit, network byte order).  The trailing `sin_zero`
padding is never inspected and is omitted. -/
structure sockaddr_in where
  sin_family : Nat
  sin_port : Nat
  sin_addr : Nat
deriving DecidableEq, Repr

/-- Translation of `struct Endpoint`: its single data member is
`sockaddr_in m_endpoint{}`. -/
structure Endpoint where
  m_endpoint : sockaddr_in
deriving DecidableEq, Repr

/-- The default constructor `Endpoint() = default` zero-initialises
`m_endpoint` (the member has the initialiser `{}`). -/
def Endpoint.defaultCtor : Endpoint := ⟨⟨0, 0, 0⟩⟩

/-- Translation of `Endpoint(std::uint32_t address, std::uint16_t port)`:
`m_endpoint{AF_INET, internal::swapBytes(port), internal::swapBytes(address)}`.
The arguments are the host-order values of the `uint32_t`/`uint16_t`
parameters. -/
def Endpoint.ofNum (address port : Nat) : Endpoint :=
  ⟨⟨AF_INET, swapBytes16 port, swapBytes32 address⟩⟩

/-- Translation of `Endpoint(in_addr address, std::uint16_t port)`:
`m_endpoint{AF_INET, internal::swapBytes(port), address}` — the address is
stored as-is (it is already in network order), only the port is swapped. -/
def Endpoint.ofInAddr (address port : Nat) : Endpoint :=
  ⟨⟨AF_INET, swapBytes16 port, address⟩⟩

/-- Translation of `explicit operator bool()`:
`m_endpoint.sin_family == AF_INET`. -/
def Endpoint.operatorBool (e : Endpoint) : Bool :=
  e.m_endpoint.sin_family == AF_INET

/-- Translation of `operator==(Endpoint const &right)`:
`m_endpoint.sin_addr.s_addr == right.m_endpoint.sin_addr.s_addr` — it compares
the stored addresses only, never the ports and never the families. -/
def Endpoint.operatorEq (l r : Endpoint) : Bool :=
  l.m_endpoint.sin_addr == r.m_endpoint.sin_addr

/-- Translation of `setAddress`: stores `swapBytes(address)`. -/
def Endpoint.setAddress (e : Endpoint) (address : Nat) : Endpoint :=
  ⟨⟨e.m_endpoint.sin_family, e.m_endpoint.sin_port, swapBytes32 address⟩⟩

/-- Translation of `setPort`: stores `swapBytes(port)`. -/
def Endpoint.setPort (e : Endpoint) (port : Nat) : Endpoint :=
  ⟨⟨e.m_endpoint.sin_family, swapBytes16 port, e.m_endpoint.sin_addr⟩⟩

/-- Translation of `address()`: `swapBytes(m_endpoint.sin_addr.s_addr)`. -/
def Endpoint.address (e : Endpoint) : Nat :=
  swapBytes32 e.m_endpoint.sin_addr

/-- Translation of `port()`: `swapBytes(m_endpoint.sin_port)`. -/
def Endpoint.port (e : Endpoint) : Nat :=
  swapBytes16 e.m_endpoint.sin_port

/-! ### Text representation of addresses

`Endpoint::derive` and `Endpoint::ip` delegate the text conversion to the
platform functions `::inet_pton` and `::inet_ntop`, which are not part of this
repository; they are modelled here over the character list of the argument
string.  The supported platform is little-endian, so the stored `s_addr`
carries the first dotted-decimal octet in its least-significant byte. -/

/-- Numeric value of a list of decimal digit characters. -/
def digitsVal (cs : List Char) : Nat :=
  cs.foldl (fun a c => a * 10 + (c.toNat - 48)) 0

/-- Whether a character list is a decimal octet: non-empty, at most three
digits, value at most 255. -/
def isOctetStr (cs : List Char) : Bool :=
  !cs.isEmpty && decide (cs.length ≤ 3) && cs.all Char.isDigit &&
    decide (digitsVal cs ≤ 255)

/-- Split a character list at every dot. -/
def splitDots : List Char → List (List Char)
  | [] => [[]]
  | c :: rest =>
    if c = '.' then [] :: splitDots rest
    else
      match splitDots rest with
      | [] => [[c]]
      | g :: gs => (c :: g) :: gs

/-- Modelled from the spec: `::inet_pton(AF_INET, s, &addr)` (not part of this
repository) parses a dotted-decimal IPv4 string `a.b.c.d` with each octet in
[0,255] and writes the four octets into `addr` in network byte order; on the
little-endian target the resulting `s_addr` value has octet `a` in its
least-significant byte.  Returns `none` on malformed input (where the real
call returns 0 instead of 1). -/
def inet_pton (cs : List Char) : Option Nat :=
  match splitDots cs with
  | [a, b, c, d] =>
    if isOctetStr a && isOctetStr b && isOctetStr c && isOctetStr d then
      some (digitsVal a + 256 * digitsVal b + 65536 * digitsVal c +
        16777216 * digitsVal d)
    else none
  | _ => none

/-- Decimal digit character for a value below 10. -/
def digitChar (n : Nat) : Char := Char.ofNat (48 + n)

/-- Decimal rendering (no leading zeros) of a number below 1000. -/
def natDigits (n : Nat) : List Char :=
  if n < 10 then [digitChar n]
  else if n < 100 then [digitChar (n / 10), digitChar (n % 10)]
  else [digitChar (n / 100), digitChar (n / 10 % 10), digitChar (n % 10)]

/-- Modelled from the spec: `::inet_ntop(AF_INET, &addr, buf, 16)` (not part
of this repository) renders the stored network-order address as dotted-decimal
text `a.b.c.d`; on the little-endian target the first octet printed is the
least-significant byte of `s_addr`.  The 16-byte output buffer and its
trailing NUL padding are not modelled, only the rendered text. -/
def inet_ntop (addr : Nat) : List Char :=
  natDigits (addr % 256) ++ '.' ::
    (natDigits (addr / 256 % 256) ++ '.' ::
      (natDigits (addr / 65536 % 256) ++ '.' ::
        natDigits (addr / 16777216 % 256)))

/-- Translation of `Endpoint::derive(ip, port)`:
`inet_pton(AF_INET, ip.data(), &address) == 1 ? Endpoint{address, port} :
Endpoint{}`.  The argument is the character list of the `string_view`. -/
def Endpoint.derive (ip : List Char) (port : Nat) : Endpoint :=
  match inet_pton ip with
  | some address => Endpoint.ofInAddr address port
  | none => Endpoint.defaultCtor

/-- Translation of `Endpoint::ip()`: renders `m_endpoint.sin_addr` with
`::inet_ntop`. -/
def Endpoint.ip (e : Endpoint) : List Char :=
  inet_ntop e.m_endpoint.sin_addr

/-- Translation of `Endpoint::lookup(host, port)`.  The call
`::getaddrinfo(host.data(), nullptr, &hints, &result)` (not part of this
repository) is modelled from the spec as an oracle `resolve` giving the
network-order `sin_addr` values of the resolution results restricted to
IPv4/stream sockets, or `none` on resolution failure.  On failure the function
returns `Endpoint{}`; on success it takes the first result's address
(`result->sin_addr`, here the list head) and builds `Endpoint{address, port}`
with the `in_addr` constructor. -/
def Endpoint.lookup (resolve : List Char → Option (List Nat))
    (host : List Char) (port : Nat) : Endpoint :=
  match resolve host with
  | none => Endpoint.defaultCtor
  | some addrs => Endpoint.ofInAddr (addrs.headD 0) port

/-! ### Socket

`struct Socket` has the single data member `SOCKET m_socket{INVALID_SOCKET}`.
On the supported 64-bit Windows target `SOCKET` is a 64-bit unsigned integer
and `INVALID_SOCKET = (SOCKET)(~0)`.

C++ `Socket` objects are mutable and the move operations compare object
identity (`this != &right`), so the embedding keeps an explicit object store
mapping each live object's address to its `m_socket` value, and each member
function acts on the store at the address of its `this` object.  The operating
system is the state `OSState`: the set of currently open descriptors;
`::closesocket` removes its argument from that set and does nothing (beyond an
ignored error return) for an argument that is not an open descriptor, in
particular for `INVALID_SOCKET`. -/

/-- `INVALID_SOCKET = (SOCKET)(~0)` on the 64-bit target. -/
def INVALID_SOCKET : Nat := 2 ^ 64 - 1

/-- Object store: the `m_socket` member of the `Socket` object at each
address. -/
def Store : Type := Nat → Nat

/-- Overwrite the `m_socket` member of the object at address `i`. -/
def setAt (store : Store) (i v : Nat) : Store :=
  fun k => if k = i then v else store k

/-- OS state: the descriptors currently open. -/
structure OSState where
  openDescs : List Nat
deriving DecidableEq, Repr

/-- Modelled from the spec: `::closesocket(d)` (not part of this repository)
releases descriptor `d` to the OS; called on a value that is not an open
descriptor — in particular `INVALID_SOCKET` — it fails with an error code the
wrapper ignores and closes nothing. -/
def OSState.closesocket (os : OSState) (d : Nat) : OSState :=
  ⟨os.openDescs.filter (fun x => x != d)⟩

/-- Translation of `operator bool()`: `m_socket != INVALID_SOCKET`, for the
object at address `i`. -/
def operatorBoolAt (store : Store) (i : Nat) : Bool :=
  store i != INVALID_SOCKET

/-- Translation of `release()`: `std::exchange(m_socket, INVALID_SOCKET)` —
the object at address `i` is invalidated and its previous `m_socket` value is
returned. -/
def releaseAt (store : Store) (i : Nat) : Store × Nat :=
  (setAt store i INVALID_SOCKET, store i)

/-- Translation of `close()`: `::closesocket(release())`. -/
def closeAt (store : Store) (os : OSState) (i : Nat) : Store × OSState :=
  let r := releaseAt store i
  (r.1, os.closesocket r.2)

/-- Translation of `operator=(Socket &&right)` with `this` at address `i` and
`right` at address `j`: `if (this != &right) { close(); m_socket =
right.release(); }`. -/
def moveAssignAt (store : Store) (os : OSState) (i j : Nat) : Store × OSState :=
  if i ≠ j then
    let c := closeAt store os i
    let r := releaseAt c.1 j
    (setAt r.1 i r.2, c.2)
  else (store, os)

/-- Translation of `Socket(Socket &&right)`: the new object at fresh address
`n` is first default-constructed (`m_socket = INVALID_SOCKET`) and the
constructor body delegates to the move-assignment. -/
def moveConstructAt (store : Store) (os : OSState) (n j : Nat) : Store × OSState :=
  moveAssignAt (setAt store n INVALID_SOCKET) os n j

/-- Translation of `~Socket()`: `if (bool(*this)) close();`. -/
def destroyAt (store : Store) (os : OSState) (i : Nat) : Store × OSState :=
  if operatorBoolAt store i then closeAt store os i else (store, os)

/-- Translation of `accept(Socket &socket, Endpoint &endpoint)` with the out
parameter `socket` at address `i`.  The underlying `::accept(m_socket,
&endpoint.raw(), &endpointSize)` call (not part of this repository) is the
oracle pair `ret` (the returned descriptor, `INVALID_SOCKET` on failure) and
`peer` (the peer `sockaddr_in` it writes through `endpoint.raw()` on success;
on failure `endpoint` keeps its previous value `outEp`).  The temporary
`Socket{ret}` lives at fresh address `n`; the statement
`socket = Socket{::accept(...)}` move-assigns it into `socket` and destroys it
at the end of the statement, and `return !!socket` reads the out socket's
validity.  Result: (store, OS state, `endpoint`'s value, return value). -/
def acceptAt (store : Store) (os : OSState) (i : Nat) (outEp : Endpoint)
    (ret : Nat) (peer : sockaddr_in) (n : Nat) :
    Store × OSState × Endpoint × Bool :=
  let ep := if ret != INVALID_SOCKET then Endpoint.mk peer else outEp
  let a := moveAssignAt (setAt store n ret) os i n
  let d := destroyAt a.1 a.2 n
  (d.1, d.2, ep, operatorBoolAt d.1 i)

/-- Conversion of the `int` result of `::send` to the method's `std::size_t`
return type (two's-complement conversion modulo `2^64`). -/
def toSizeT (i : Int) : Nat := (i % (2 ^ 64 : Int)).toNat

/-- Modelled from the spec: `::send(d, buf, size, 0)` (not part of this
repository) returns the number of bytes sent — here `size`, partial sends
being outside the claims under proof — or `-1` (`SOCKET_ERROR`) when it fails,
in particular whenever `d` is not a connected socket.  `connected` is the
oracle for which descriptors have an established connection. -/
def os_send (connected : Nat → Bool) (d : Nat) (size : Nat) : Int :=
  if connected d then (size : Int) else -1

/-- Translation of `send(auto const *data, std::size_t size)` for the Socket
object at address `i`: `return ::send(m_socket, data, size, 0);` — the `int`
result is converted to the declared `std::size_t` return type.  The
single-argument overload differs only in taking the size from `sizeof`. -/
def sendAt (connected : Nat → Bool) (store : Store) (i : Nat) (size : Nat) : Nat :=
  toSizeT (os_send connected (store i) size)

/-! ### Helper lemmas about the store and the OS state -/

theorem setAt_same (store : Store) (i v : Nat) : setAt store i v i = v := by
  simp [setAt]

theorem setAt_ne (store : Store) (i v k : Nat) (h : k ≠ i) :
    setAt store i v k = store k := by
  simp [setAt, h]

theorem closesocket_not_mem (os : OSState) (d : Nat) :
    d ∉ (os.closesocket d).openDescs := by
  simp [OSState.closesocket, List.mem_filter]

theorem closesocket_noop (os : OSState) (d : Nat) (h : d ∉ os.openDescs) :
    os.closesocket d = os := by
  cases os with
  | mk l =>
    simp only [OSState.closesocket, OSState.mk.injEq]
    apply List.filter_eq_self.mpr
    intro x hx
    simp only [bne_iff_ne, ne_eq]
    intro hxd
    exact h (hxd ▸ hx)

/-! ### Claim theorems -/

/-- C10: Self-move-assignment on a Socket is a no-op: with `this` and `right`
both at address `i`, the guard `this != &right` makes `operator=` leave the
object's descriptor and the OS state unchanged, so the descriptor is not
closed. -/
theorem socket_self_move_noop (store : Store) (os : OSState) (i : Nat) :
    moveAssignAt store os i i = (store, os) ∧
    (moveAssignAt store os i i).1 i = store i ∧
    (moveAssignAt store os i i).2 = os := by
  refine ⟨by simp [moveAssignAt], ?_, ?_⟩ <;> simp [moveAssignAt]

/-- C1: moving from the Socket at address `j` owning descriptor `d` — by
move-assignment into the Socket at address `i`, or by move-construction of a
fresh Socket at address `n` — leaves the source testing false (it holds
`INVALID_SOCKET`), makes the destination test true and own `d`, and a
subsequent destruction of the moved-from source is a complete no-op (it
closes nothing, so `d` is not double-closed). -/
theorem socket_move_transfers_ownership (store : Store) (os : OSState)
    (i j n d : Nat) (hij : i ≠ j) (hnj : n ≠ j) (hd : store j = d)
    (hdv : d ≠ INVALID_SOCKET) :
    (operatorBoolAt (moveAssignAt store os i j).1 j = false ∧
     (moveAssignAt store os i j).1 i = d ∧
     operatorBoolAt (moveAssignAt store os i j).1 i = true ∧
     destroyAt (moveAssignAt store os i j).1 (moveAssignAt store os i j).2 j =
       ((moveAssignAt store os i j).1, (moveAssignAt store os i j).2)) ∧
    (operatorBoolAt (moveConstructAt store os n j).1 j = false ∧
     (moveConstructAt store os n j).1 n = d ∧
     operatorBoolAt (moveConstructAt store os n j).1 n = true ∧
     destroyAt (moveConstructAt store os n j).1 (moveConstructAt store os n j).2 j =
       ((moveConstructAt store os n j).1, (moveConstructAt store os n j).2)) := by
  have hji : j ≠ i := Ne.symm hij
  have hjn : j ≠ n := Ne.symm hnj
  constructor
  · refine ⟨?_, ?_, ?_, ?_⟩ <;>
      simp [moveAssignAt, closeAt, releaseAt, destroyAt, operatorBoolAt, setAt,
        hij, hji, hd, hdv]
  · refine ⟨?_, ?_, ?_, ?_⟩ <;>
      simp [moveConstructAt, moveAssignAt, closeAt, releaseAt, destroyAt,
        operatorBoolAt, setAt, hnj, hjn, hd, hdv]

/-- C2: closing the Socket at address `i` twice in a row: the first `close()`
leaves it holding `INVALID_SOCKET`, and the second `close()` changes neither
the OS state (the `::closesocket(INVALID_SOCKET)` error is ignored, so it is
a no-op, not an error) nor any object, and the Socket stays invalid.  The
hypothesis states that the OS never lists the `INVALID_SOCKET` sentinel as an
open descriptor. -/
theorem socket_close_idempotent (store : Store) (os : OSState) (i : Nat)
    (h : INVALID_SOCKET ∉ os.openDescs) :
    (closeAt store os i).1 i = INVALID_SOCKET ∧
    (closeAt (closeAt store os i).1 (closeAt store os i).2 i).2 =
      (closeAt store os i).2 ∧
    (closeAt (closeAt store os i).1 (closeAt store os i).2 i).1 i =
      INVALID_SOCKET ∧
    ∀ k, (closeAt (closeAt store os i).1 (closeAt store os i).2 i).1 k =
      (closeAt store os i).1 k := by
  refine ⟨by simp [closeAt, releaseAt, setAt], ?_, ?_, ?_⟩
  · simp only [closeAt, releaseAt, setAt_same]
    apply closesocket_noop
    intro hmem
    have hsub : INVALID_SOCKET ∈ os.openDescs := by
      have := List.mem_filter.mp hmem
      exact this.1
    exact h hsub
  · simp [closeAt, releaseAt, setAt]
  · intro k
    by_cases hk : k = i
    · simp [closeAt, releaseAt, setAt, hk]
    · simp [closeAt, releaseAt, setAt, hk]

/-- C7: `accept(outSocket, outEndpoint)` with the out Socket at address `i`:
the descriptor previously owned by the out Socket is closed as part of the
move-assignment overwrite, the out Socket ends up owning the accepted
descriptor `ret`, on success the out Endpoint carries the peer address the OS
wrote, and the returned flag is true exactly when the new socket is valid
(`ret` differs from `INVALID_SOCKET`). -/
theorem accept_overwrites_and_returns_validity (store : Store) (os : OSState)
    (i n : Nat) (outEp : Endpoint) (ret : Nat) (peer : sockaddr_in)
    (hin : i ≠ n) :
    (acceptAt store os i outEp ret peer n).1 i = ret ∧
    (acceptAt store os i outEp ret peer n).2.1 = os.closesocket (store i) ∧
    store i ∉ (acceptAt store os i outEp ret peer n).2.1.openDescs ∧
    (ret ≠ INVALID_SOCKET →
      (acceptAt store os i outEp ret peer n).2.2.1 = Endpoint.mk peer) ∧
    ((acceptAt store os i outEp ret peer n).2.2.2 = true ↔
      ret ≠ INVALID_SOCKET) := by
  have hni : n ≠ i := Ne.symm hin
  refine ⟨?_, ?_, ?_, ?_, ?_⟩
  · simp [acceptAt, moveAssignAt, closeAt, releaseAt, destroyAt,
      operatorBoolAt, setAt, hin, hni]
  · simp [acceptAt, moveAssignAt, closeAt, releaseAt, destroyAt,
      operatorBoolAt, setAt, hin, hni]
  · have hrw : (acceptAt store os i outEp ret peer n).2.1 =
        os.closesocket (store i) := by
      simp [acceptAt, moveAssignAt, closeAt, releaseAt, destroyAt,
        operatorBoolAt, setAt, hin, hni]
    rw [hrw]
    exact closesocket_not_mem os (store i)
  · intro hret
    simp [acceptAt, hret]
  · simp [acceptAt, moveAssignAt, closeAt, releaseAt, destroyAt,
      operatorBoolAt, setAt, hin, hni]

/-- Sample store for witnesses: one Socket object at address 1 owning
descriptor 5, every other address holding an invalid Socket. -/
def wStore : Store := fun k => if k = 1 then 5 else INVALID_SOCKET

/-- Sample OS state for witnesses: descriptor 5 is open. -/
def wOS : OSState := ⟨[5]⟩

theorem socket_move_transfers_ownership_witness :
    (0 : Nat) ≠ 1 ∧ (2 : Nat) ≠ 1 ∧ wStore 1 = 5 ∧
    (5 : Nat) ≠ INVALID_SOCKET ∧
    operatorBoolAt (moveAssignAt wStore wOS 0 1).1 1 = false ∧
    (moveAssignAt wStore wOS 0 1).1 0 = 5 :=
  ⟨by decide, by decide, by decide, by decide,
    (socket_move_transfers_ownership wStore wOS 0 1 2 5 (by decide) (by decide)
      (by decide) (by decide)).1.1,
    (socket_move_transfers_ownership wStore wOS 0 1 2 5 (by decide) (by decide)
      (by decide) (by decide)).1.2.1⟩

theorem socket_close_idempotent_witness :
    INVALID_SOCKET ∉ wOS.openDescs ∧
    (closeAt wStore wOS 1).1 1 = INVALID_SOCKET ∧
    (closeAt (closeAt wStore wOS 1).1 (closeAt wStore wOS 1).2 1).2 =
      (closeAt wStore wOS 1).2 :=
  ⟨by decide,
    (socket_close_idempotent wStore wOS 1 (by decide)).1,
    (socket_close_idempotent wStore wOS 1 (by decide)).2.1⟩

theorem accept_overwrites_and_returns_validity_witness :
    (1 : Nat) ≠ 2 ∧
    (acceptAt wStore wOS 1 Endpoint.defaultCtor 9 ⟨2, 80, 16777343⟩ 2).1 1 = 9 ∧
    ((acceptAt wStore wOS 1 Endpoint.defaultCtor 9 ⟨2, 80, 16777343⟩ 2).2.2.2 =
      true ↔ (9 : Nat) ≠ INVALID_SOCKET) :=
  ⟨by decide,
    (accept_overwrites_and_returns_validity wStore wOS 1 2 Endpoint.defaultCtor
      9 ⟨2, 80, 16777343⟩ (by decide)).1,
    (accept_overwrites_and_returns_validity wStore wOS 1 2 Endpoint.defaultCtor
      9 ⟨2, 80, 16777343⟩ (by decide)).2.2.2.2⟩

/-- C3: `operator==` on Endpoints built by the numeric constructor compares
the stored address only and ignores the ports completely: for 32-bit
addresses, `Endpoint(a, p) == Endpoint(b, q)` holds exactly when `a = b`,
whatever `p` and `q` are. -/
theorem endpoint_eq_compares_address_only (a b p q : Nat)
    (ha : a < 4294967296) (hb : b < 4294967296) :
    (Endpoint.operatorEq (Endpoint.ofNum a p) (Endpoint.ofNum b q) = true ↔
      a = b) := by
  simp only [Endpoint.operatorEq, Endpoint.ofNum, beq_iff_eq]
  constructor
  · exact fun h => swapBytes32_inj a b ha hb h
  · intro h
    rw [h]

theorem endpoint_eq_compares_address_only_witness :
    (7 : Nat) < 4294967296 ∧
    Endpoint.operatorEq (Endpoint.ofNum 7 80) (Endpoint.ofNum 7 443) = true :=
  ⟨by decide,
    (endpoint_eq_compares_address_only 7 7 80 443 (by decide) (by decide)).mpr
      rfl⟩

/-- C4: the constructor `Endpoint(address, port)` stores both host-order
values byte-swapped (to network order), and the accessors `address()` and
`port()` swap back, so they round-trip to the original values. -/
theorem endpoint_byte_order_round_trip (a p : Nat) (ha : a < 4294967296)
    (hp : p < 65536) :
    (Endpoint.ofNum a p).m_endpoint.sin_addr = swapBytes32 a ∧
    (Endpoint.ofNum a p).m_endpoint.sin_port = swapBytes16 p ∧
    (Endpoint.ofNum a p).address = a ∧
    (Endpoint.ofNum a p).port = p := by
  refine ⟨rfl, rfl, ?_, ?_⟩
  · show swapBytes32 (swapBytes32 a) = a
    exact swapBytes32_involutive a ha
  · show swapBytes16 (swapBytes16 p) = p
    exact swapBytes16_involutive p hp

theorem endpoint_byte_order_round_trip_witness :
    (16909060 : Nat) < 4294967296 ∧ (8080 : Nat) < 65536 ∧
    (Endpoint.ofNum 16909060 8080).address = 16909060 ∧
    (Endpoint.ofNum 16909060 8080).port = 8080 :=
  ⟨by decide, by decide,
    (endpoint_byte_order_round_trip 16909060 8080 (by decide) (by decide)).2.2.1,
    (endpoint_byte_order_round_trip 16909060 8080 (by decide) (by decide)).2.2.2⟩

/-- C5 counterexample: sending on an unconnected Socket does not produce a
non-positive/zero result — the claim, read over the method's unsigned
`std::size_t` return type, asserts the result is 0, but `send` on the Socket
at address 0 owning descriptor 3, with no descriptor connected, returns the
`size_t` conversion of `-1`, the huge positive value `2^64 - 1`. -/
theorem send_failure_not_zero_counterexample :
    sendAt (fun _ => false) (fun _ => 3) 0 10 ≠ 0 ∧
    sendAt (fun _ => false) (fun _ => 3) 0 10 = 2 ^ 64 - 1 := by
  constructor <;> decide

/-- C5 (amended): whenever the underlying `::send` fails because the Socket's
descriptor is not connected, `Socket::send` returns the `std::size_t`
conversion of the `-1` failure sentinel, i.e. `2^64 - 1` (`SIZE_MAX`) — a
distinguished failure indication, but a large positive value, not a
non-positive/zero one. -/
theorem send_failure_returns_size_t_max (connected : Nat → Bool)
    (store : Store) (i size : Nat) (h : connected (store i) = false) :
    sendAt connected store i size = 2 ^ 64 - 1 := by
  simp only [sendAt, os_send, h, if_false, Bool.false_eq_true]
  decide

theorem send_failure_returns_size_t_max_witness :
    ((fun _ : Nat => false) ((fun _ : Nat => (3 : Nat)) 0) = false) ∧
    sendAt (fun _ => false) (fun _ => 3) 0 10 = 2 ^ 64 - 1 :=
  ⟨rfl, send_failure_returns_size_t_max (fun _ => false) (fun _ => 3) 0 10 rfl⟩

/-- C6 counterexample: a default-constructed Endpoint does not fail equality
checks — `operator==` compares only the stored address, so the invalid
default Endpoint (stored address 0) compares equal to the valid Endpoint
`Endpoint(0, 80)` (address 0.0.0.0, which tests true). -/
theorem default_endpoint_equality_counterexample :
    Endpoint.operatorEq Endpoint.defaultCtor (Endpoint.ofNum 0 80) = true ∧
    (Endpoint.ofNum 0 80).operatorBool = true ∧
    Endpoint.defaultCtor.operatorBool = false := by
  refine ⟨by decide, by decide, by decide⟩

/-- C6 (amended): a default-constructed Endpoint is invalid — its address
family is zero and its truthiness test returns false — and every Endpoint
from the non-default numeric constructors carries the IPv4 family marker and
tests true; but equality compares stored addresses only, so the invalid
default Endpoint does not fail equality checks: it compares equal to any
Endpoint whose stored address is 0, valid ones included. -/
theorem default_endpoint_invalid_amended :
    Endpoint.defaultCtor.m_endpoint.sin_family = 0 ∧
    Endpoint.defaultCtor.operatorBool = false ∧
    (∀ a p : Nat, (Endpoint.ofNum a p).operatorBool = true) ∧
    (∀ a p : Nat, (Endpoint.ofInAddr a p).operatorBool = true) ∧
    Endpoint.operatorEq Endpoint.defaultCtor (Endpoint.ofNum 0 80) = true :=
  ⟨rfl, rfl, fun _ _ => rfl, fun _ _ => rfl, by decide⟩

/-! ### Parsing lemmas for the dotted-decimal round trip -/

theorem splitDots_no_dot (xs : List Char) (h : '.' ∉ xs) :
    splitDots xs = [xs] := by
  induction xs with
  | nil => rfl
  | cons c rest ih =>
    have hc : c ≠ '.' := fun hc => h (hc ▸ List.mem_cons_self c rest)
    have hrest : '.' ∉ rest := fun hm => h (List.mem_cons_of_mem c hm)
    simp only [splitDots, if_neg hc, ih hrest]

theorem splitDots_append (xs ys : List Char) (h : '.' ∉ xs) :
    splitDots (xs ++ '.' :: ys) = xs :: splitDots ys := by
  induction xs with
  | nil => simp [splitDots]
  | cons c rest ih =>
    have hc : c ≠ '.' := fun hc => h (hc ▸ List.mem_cons_self c rest)
    have hrest : '.' ∉ rest := fun hm => h (List.mem_cons_of_mem c hm)
    simp only [List.cons_append, splitDots, if_neg hc]
    rw [show rest.append ('.' :: ys) = rest ++ '.' :: ys from rfl, ih hrest]

theorem no_dot_of_octet (cs : List Char) (h : isOctetStr cs = true) :
    '.' ∉ cs := by
  intro hmem
  have hall : cs.all Char.isDigit = true := by
    simp only [isOctetStr, Bool.and_eq_true] at h
    exact h.1.2
  have := List.all_eq_true.mp hall '.' hmem
  simp [Char.isDigit] at this

theorem octet_le (cs : List Char) (h : isOctetStr cs = true) :
    digitsVal cs ≤ 255 := by
  simp only [isOctetStr, Bool.and_eq_true, decide_eq_true_eq] at h
  exact h.2

/-- C8: for every well-formed dotted-decimal string `A.B.C.D` whose four
octet groups are digit strings with values in [0,255], and every 16-bit port,
`Endpoint::derive` succeeds, the resulting Endpoint's `port()` gives back the
port, and its `ip()` renders the same four octet values (canonically, i.e.
modulo leading-zero formatting of the input groups). -/
theorem derive_round_trip (A B C D : List Char) (p : Nat)
    (hA : isOctetStr A = true) (hB : isOctetStr B = true)
    (hC : isOctetStr C = true) (hD : isOctetStr D = true) (hp : p < 65536) :
    (Endpoint.derive (A ++ '.' :: (B ++ '.' :: (C ++ '.' :: D))) p).operatorBool
        = true ∧
    (Endpoint.derive (A ++ '.' :: (B ++ '.' :: (C ++ '.' :: D))) p).port = p ∧
    (Endpoint.derive (A ++ '.' :: (B ++ '.' :: (C ++ '.' :: D))) p).ip =
      natDigits (digitsVal A) ++ '.' :: (natDigits (digitsVal B) ++ '.' ::
        (natDigits (digitsVal C) ++ '.' :: natDigits (digitsVal D))) := by
  have hderive : Endpoint.derive (A ++ '.' :: (B ++ '.' :: (C ++ '.' :: D))) p =
      Endpoint.ofInAddr (digitsVal A + 256 * digitsVal B + 65536 * digitsVal C +
        16777216 * digitsVal D) p := by
    have hsplit : splitDots (A ++ '.' :: (B ++ '.' :: (C ++ '.' :: D))) =
        [A, B, C, D] := by
      rw [splitDots_append A _ (no_dot_of_octet A hA),
        splitDots_append B _ (no_dot_of_octet B hB),
        splitDots_append C _ (no_dot_of_octet C hC),
        splitDots_no_dot D (no_dot_of_octet D hD)]
    unfold Endpoint.derive inet_pton
    rw [hsplit]
    simp [hA, hB, hC, hD]
  rw [hderive]
  have ha := octet_le A hA
  have hb := octet_le B hB
  have hc := octet_le C hC
  have hd := octet_le D hD
  refine ⟨rfl, ?_, ?_⟩
  · show swapBytes16 (swapBytes16 p) = p
    exact swapBytes16_involutive p hp
  · have e1 : (digitsVal A + 256 * digitsVal B + 65536 * digitsVal C +
        16777216 * digitsVal D) % 256 = digitsVal A := by omega
    have e2 : (digitsVal A + 256 * digitsVal B + 65536 * digitsVal C +
        16777216 * digitsVal D) / 256 % 256 = digitsVal B := by omega
    have e3 : (digitsVal A + 256 * digitsVal B + 65536 * digitsVal C +
        16777216 * digitsVal D) / 65536 % 256 = digitsVal C := by omega
    have e4 : (digitsVal A + 256 * digitsVal B + 65536 * digitsVal C +
        16777216 * digitsVal D) / 16777216 % 256 = digitsVal D := by omega
    simp only [Endpoint.ip, Endpoint.ofInAddr, inet_ntop, e1, e2, e3, e4]

theorem derive_round_trip_witness :
    isOctetStr ['1', '2', '7'] = true ∧ isOctetStr ['0'] = true ∧
    isOctetStr ['1'] = true ∧ (9000 : Nat) < 65536 ∧
    (Endpoint.derive (['1', '2', '7'] ++ '.' :: (['0'] ++ '.' ::
      (['0'] ++ '.' :: ['1']))) 9000).port = 9000 :=
  ⟨by decide, by decide, by decide, by decide,
    (derive_round_trip ['1', '2', '7'] ['0'] ['0'] ['1'] 9000 (by decide)
      (by decide) (by decide) (by decide) (by decide)).2.1⟩

/-- C9: when hostname resolution fails, `Endpoint::lookup` returns the
invalid sentinel `Endpoint{}`, which tests false (and, being a total
function, it raises nothing); when resolution succeeds it builds the Endpoint
from the first result's address and the given port. -/
theorem lookup_failure_sentinel (resolve : List Char → Option (List Nat))
    (host : List Char) (port : Nat) :
    (resolve host = none →
      Endpoint.lookup resolve host port = Endpoint.defaultCtor ∧
      (Endpoint.lookup resolve host port).operatorBool = false) ∧
    (∀ a rest, resolve host = some (a :: rest) →
      Endpoint.lookup resolve host port = Endpoint.ofInAddr a port) := by
  constructor
  · intro h
    refine ⟨by simp [Endpoint.lookup, h], ?_⟩
    simp only [Endpoint.lookup, h]
    decide
  · intro a rest h
    simp [Endpoint.lookup, h]

theorem lookup_failure_sentinel_witness :
    ((fun _ : List Char => (none : Option (List Nat))) ['x'] = none) ∧
    (Endpoint.lookup (fun _ => none) ['x'] 80).operatorBool = false ∧
    Endpoint.lookup (fun _ => some [16777343]) ['x'] 80 =
      Endpoint.ofInAddr 16777343 80 :=
  ⟨rfl,
    ((lookup_failure_sentinel (fun _ => none) ['x'] 80).1 rfl).2,
    (lookup_failure_sentinel (fun _ => some [16777343]) ['x'] 80).2 16777343
      [] rfl⟩

end tcp
